import Mathlib

set_option autoImplicit false

/-!
Shallow embedding of the Bot-AI-Agents repository's router / normalizer /
composer core (src/mcp_client/mcp_client.py, src/mcp_client/config_mcp_client.py,
src/mcp_client/test.py, src/mcp_server_music/mcp_server.py), with theorems
settling the frozen claims about it.

JSON values are modelled by an inductive `Json`; Python dicts are association
lists with unique keys maintained by in-place update (CPython dict semantics:
first occurrence keeps its position, later assignment overwrites the value).
`json_loads` models Python's `json.loads` restricted to the JSON fragment the
program exchanges (objects, arrays, strings with simple escapes, integers,
true/false/null); `str.lower` is modelled on its ASCII range, which covers
every keyword and trigger word the routers compare against.
-/

/-- JSON values as exchanged between the clients, the model and the tools. -/
inductive Json where
  | null
  | bool (b : Bool)
  | num (n : Int)
  | str (s : String)
  | arr (items : List Json)
  | obj (fields : List (String × Json))

/-- Python dict lookup `d[k]` / `d.get(k)` on the association list: the first
binding of the key (keys are unique by construction). -/
def lookupField : List (String × Json) → String → Option Json
  | [], _ => none
  | (k, v) :: rest, key => if k = key then some v else lookupField rest key

/-- Python dict assignment `d[k] = v`: overwrite in place if the key exists,
else append (CPython insertion-order semantics). -/
def updateField : List (String × Json) → String → Json → List (String × Json)
  | [], key, v => [(key, v)]
  | (k, w) :: rest, key, v =>
    if k = key then (k, v) :: rest else (k, w) :: updateField rest key v

/-- Python `d.setdefault(k, v)`: insert only when the key is absent. -/
def setdefaultField (fs : List (String × Json)) (key : String) (v : Json) :
    List (String × Json) :=
  match lookupField fs key with
  | some _ => fs
  | none => fs ++ [(key, v)]

/-- Python truthiness of a JSON value (`bool(x)`). -/
def Json.truthy : Json → Bool
  | .null => false
  | .bool b => b
  | .num n => n != 0
  | .str s => s != ""
  | .arr items => !items.isEmpty
  | .obj fields => !fields.isEmpty

/-- Whether the value is a JSON object (`isinstance(x, dict)`). -/
def Json.isObj : Json → Bool
  | .obj _ => true
  | _ => false

/-- Python `str(x)` on the JSON values the composer formats into messages
(the program only ever formats strings and numbers there). -/
def pyToStr : Json → String
  | .str s => s
  | .num n => toString n
  | .bool b => if b then "True" else "False"
  | .null => "None"
  | .arr _ => "[...]"
  | .obj _ => "\x7b...\x7d"

/-! ### Character and string primitives (models of Python str methods) -/

/-- The whitespace JSON and `str.strip` / `str.split` treat as insignificant
(space, horizontal tab, line feed, carriage return). -/
def wsChars : List Char := [' ', '\t', '\n', '\r']

/-- Whether a character is insignificant whitespace. -/
def isWsChar (c : Char) : Bool := wsChars.contains c

/-- Model of `str.lower` on one character (ASCII range, see header note). -/
def pyLowerChar (c : Char) : Char := c.toLower

/-- Model of `str.lower`. -/
def pyLower (s : String) : String := ⟨s.data.map pyLowerChar⟩

/-- Drop leading and trailing whitespace from a character list. -/
def stripList (cs : List Char) : List Char :=
  ((cs.dropWhile isWsChar).reverse.dropWhile isWsChar).reverse

/-- Model of `str.strip()`. -/
def pyStrip (s : String) : String := ⟨stripList s.data⟩

/-- Accumulator for `wordsList`: `acc` holds the reversed current word. -/
def wordsAux : List Char → List Char → List (List Char)
  | [], acc => if acc.isEmpty then [] else [acc.reverse]
  | c :: rest, acc =>
    if isWsChar c then
      if acc.isEmpty then wordsAux rest [] else acc.reverse :: wordsAux rest []
    else wordsAux rest (c :: acc)

/-- Maximal whitespace-separated words of a character list (Python
`str.split()` with no separator: empty pieces are discarded). -/
def wordsList (cs : List Char) : List (List Char) := wordsAux cs []

/-- Model of `str.split()` returning strings. -/
def pySplitWs (s : String) : List String := (wordsList s.data).map (⟨·⟩)

/-- Join words with single spaces (`' '.join(ws)`). -/
def joinSpList : List (List Char) → List Char
  | [] => []
  | [w] => w
  | w :: rest => w ++ ' ' :: joinSpList rest

/-- Whether `needle` occurs as a contiguous substring (`needle in hay`). -/
def containsSubList (needle : List Char) : List Char → Bool
  | [] => needle.isEmpty
  | c :: rest => needle.isPrefixOf (c :: rest) || containsSubList needle rest

/-- Model of Python `sub in s` on strings. -/
def containsSub (needle hay : String) : Bool := containsSubList needle.data hay.data

/-- Characters after the first occurrence of `needle` (total; only ever used
under a `needle in hay` guard in the embedded code). -/
def dropThroughSubList (needle : List Char) : List Char → List Char
  | [] => []
  | c :: rest =>
    if needle.isPrefixOf (c :: rest) then (c :: rest).drop needle.length
    else dropThroughSubList needle rest

/-- Characters strictly before the first occurrence of `needle` (all of the
input when `needle` does not occur). -/
def takeUntilSubList (needle : List Char) : List Char → List Char
  | [] => []
  | c :: rest =>
    if needle.isPrefixOf (c :: rest) then []
    else c :: takeUntilSubList needle rest

/-! ### Model of `json.loads` -/

/-- Skip insignificant whitespace. -/
def skipWs : List Char → List Char
  | [] => []
  | c :: rest => if isWsChar c then skipWs rest else c :: rest

/-- The JSON one-character escape table: each escape letter paired with the
character it denotes. -/
def escTable : List (Char × Char) :=
  [('"', '"'), ('\\', '\\'), ('/', '/'), ('n', '\n'), ('t', '\t'),
   ('r', '\r'), ('b', Char.ofNat 8), ('f', Char.ofNat 12)]

/-- One-character JSON string escapes (`\uXXXX` is outside the modelled
fragment and makes the parse fail, as does any invalid escape in Python). -/
def escChar (e : Char) : Option Char :=
  (escTable.find? (fun p => p.1 == e)).map (fun p => p.2)

/-- Body of a JSON string after the opening quote: the decoded content and
the characters after the closing quote. -/
def parseStrBody : List Char → Option (List Char × List Char)
  | [] => none
  | '"' :: rest => some ([], rest)
  | '\\' :: e :: rest =>
    match escChar e with
    | some c => (parseStrBody rest).map (fun p => (c :: p.1, p.2))
    | none => none
  | c :: rest => (parseStrBody rest).map (fun p => (c :: p.1, p.2))

/-- Leading decimal digits and the remaining characters. -/
def takeDigits : List Char → (List Char × List Char)
  | [] => ([], [])
  | c :: rest =>
    if c.isDigit then
      let p := takeDigits rest
      (c :: p.1, p.2)
    else ([], c :: rest)

/-- Numeric value of a digit list. -/
def digitsToNat (ds : List Char) : Nat :=
  ds.foldl (fun n c => 10 * n + (c.toNat - '0'.toNat)) 0

/-- JSON integer literal (floats are outside the modelled fragment: a '.' or
exponent after the digits makes the parse fail). As in RFC 8259 and Python's
`json.loads`, a multi-digit literal must not start with `0`. -/
def parseNum (cs : List Char) : Option (Int × List Char) :=
  let sign : Bool := cs.head? = some '-'
  let cs' := if sign then cs.tail else cs
  let p := takeDigits cs'
  if p.1 = [] then none
  else if 2 ≤ p.1.length ∧ p.1.head? = some '0' then none
  else
    match p.2 with
    | c :: _ => if c == '.' || c == 'e' || c == 'E' then none
        else some ((if sign then -(digitsToNat p.1 : Int) else (digitsToNat p.1 : Int)), p.2)
    | [] => some ((if sign then -(digitsToNat p.1 : Int) else (digitsToNat p.1 : Int)), [])

mutual

/-- Recursive-descent JSON value parser (fuel-indexed; `json_loads` supplies
ample fuel, so fuel exhaustion never occurs on the program's payloads). -/
def parseVal : Nat → List Char → Option (Json × List Char)
  | 0, _ => none
  | fuel + 1, cs =>
    match skipWs cs with
    | [] => none
    | c :: rest =>
      if c = '{' then
        match skipWs rest with
        | '}' :: rest2 => some (.obj [], rest2)
        | rest2 => (parseMembers fuel rest2 []).map (fun p => (Json.obj p.1, p.2))
      else if c = '[' then
        match skipWs rest with
        | ']' :: rest2 => some (.arr [], rest2)
        | rest2 => (parseItems fuel rest2).map (fun p => (Json.arr p.1, p.2))
      else if c = '"' then
        (parseStrBody rest).map (fun p => (Json.str ⟨p.1⟩, p.2))
      else if c = 't' then
        if ['r', 'u', 'e'].isPrefixOf rest then some (.bool true, rest.drop 3) else none
      else if c = 'f' then
        if ['a', 'l', 's', 'e'].isPrefixOf rest then some (.bool false, rest.drop 4) else none
      else if c = 'n' then
        if ['u', 'l', 'l'].isPrefixOf rest then some (.null, rest.drop 3) else none
      else
        (parseNum (c :: rest)).map (fun p => (Json.num p.1, p.2))

/-- One or more comma-separated array items followed by `]`. -/
def parseItems : Nat → List Char → Option (List Json × List Char)
  | 0, _ => none
  | fuel + 1, cs => do
    let (v, rest) ← parseVal fuel cs
    match skipWs rest with
    | ',' :: rest2 => (parseItems fuel rest2).map (fun p => (v :: p.1, p.2))
    | ']' :: rest2 => some ([v], rest2)
    | _ => none

/-- One or more comma-separated object members followed by `}`; repeated keys
overwrite in place like CPython dict building. -/
def parseMembers : Nat → List Char → List (String × Json) →
    Option (List (String × Json) × List Char)
  | 0, _, _ => none
  | fuel + 1, cs, acc =>
    match skipWs cs with
    | '"' :: rest => do
      let (key, rest2) ← parseStrBody rest
      match skipWs rest2 with
      | ':' :: rest3 => do
        let (v, rest4) ← parseVal fuel rest3
        let acc2 := updateField acc ⟨key⟩ v
        match skipWs rest4 with
        | ',' :: rest5 => parseMembers fuel rest5 acc2
        | '}' :: rest5 => some (acc2, rest5)
        | _ => none
      | _ => none
    | _ => none

end

/-- Model of `json.loads`: parse one JSON value and require that nothing but
whitespace remains (Python raises on trailing data; a failure is `none`). -/
def json_loads (s : String) : Option Json :=
  match parseVal (4 * s.data.length + 16) s.data with
  | some (v, rest) => if skipWs rest = [] then some v else none
  | none => none

/-! ### Result Normalizer (mcp_client.py, `_parse_tool_result.extract_tracks`) -/

theorem lookupField_sizeOf {k : String} {v : Json} :
    ∀ {fs : List (String × Json)}, lookupField fs k = some v → sizeOf v < sizeOf fs
  | [], h => by simp [lookupField] at h
  | (k', v') :: rest, h => by
    rw [lookupField] at h
    split at h
    · cases h
      simp only [List.cons.sizeOf_spec, Prod.mk.sizeOf_spec]
      omega
    · have := lookupField_sizeOf h
      simp only [List.cons.sizeOf_spec]
      omega

/-- The normalizer of tool payloads (source: `extract_tracks` inside
`MusicMCPClient._parse_tool_result`): a dict containing the wrapper key
`result` recurses into that key; a list yields its elements; any other dict
yields itself as the single record; anything else yields no records. -/
def extract_tracks (data : Json) : List Json :=
  match data with
  | .obj fs =>
    match h : lookupField fs "result" with
    | some inner => extract_tracks inner
    | none => [Json.obj fs]
  | .arr items => items
  | _ => []
termination_by sizeOf data
decreasing_by
  have := lookupField_sizeOf h
  simp only [Json.obj.sizeOf_spec]
  omega

/-! ### Music client query cleaning and rule-first router (mcp_client.py) -/

namespace Music

/-- The fixed stoplist of action/filler words
(`MusicMCPClient._clean_query_from_user_input`). -/
def action_words : List String :=
  ["phát", "mở", "bật", "nghe", "play", "bài", "nhạc", "cho", "tôi", "tớ", "mình"]

/-- Source: `MusicMCPClient._clean_query_from_user_input` — lower-case, split
on whitespace, drop the stoplist words, join with single spaces, strip. -/
def _clean_query_from_user_input (query : String) : String :=
  let words := wordsList (pyLower query).data
  let cleaned_words := words.filter (fun w => !action_words.contains ⟨w⟩)
  ⟨stripList (joinSpList cleaned_words)⟩

/-- The play-class rule-first trigger words (`ask_router`, first branch). -/
def play_trigger_words : List String := ["phát", "mở", "bật", "nghe", "play"]

/-- The list-class rule-first trigger words (`ask_router`, second branch). -/
def list_trigger_words : List String :=
  ["danh sách", "liệt kê", "hiển thị", "có những bài", "tất cả"]

/-- The search-class rule-first trigger words (`ask_router`, third branch). -/
def search_trigger_words : List String := ["tìm", "gợi ý", "nhạc", "bài hát"]

/-- Python `any(word in q for word in ws)`. -/
def anyWordIn (ws : List String) (q : String) : Bool :=
  ws.any (fun w => containsSub w q)

/-- A router decision of the music client: `{"mode": ..., "arguments": ...}`. -/
structure MusicDecision where
  mode : String
  arguments : Json

/-- The modes `ask_router` accepts from the model. -/
def allowed_modes : List String := ["chat", "list", "search", "search_and_play"]

/-! #### JSON extraction inside the model fallback (`ask_router`, lines 290-302) -/

/-- The maximal run of non-brace characters and the rest (which starts with a
brace or is empty). -/
def spanNonBrace : List Char → (List Char × List Char)
  | [] => ([], [])
  | c :: rest =>
    if c = '{' || c = '}' then ([], c :: rest)
    else
      let p := spanNonBrace rest
      (c :: p.1, p.2)

/-- Split at the first quote character: `some (before, after)` with
`before ++ \x27"\x27 :: after` the input and `before` quote-free. -/
def firstQuoteSplit : List Char → Option (List Char × List Char)
  | [] => none
  | c :: rest =>
    if c = '"' then some ([], rest)
    else (firstQuoteSplit rest).map (fun p => (c :: p.1, p.2))

/-- The suffixes of the input that start right after a quote character,
leftmost quote first. -/
def afterQuoteSuffixes : List Char → List (List Char)
  | [] => []
  | c :: rest =>
    if c = '"' then rest :: afterQuoteSuffixes rest
    else afterQuoteSuffixes rest

/-- The part `[^"]*"[^\x7b\x7d]*\x7d` of the regex applied at `w` (the text
right after the chosen first quote): the middle segment runs to the next quote
(it may cross braces), the tail segment is brace-free and must end at a
closing brace; both are forced, so the result is the number of characters of
`w` consumed, or `none`. -/
def matchTail (w : List Char) : Option Nat :=
  match firstQuoteSplit w with
  | none => none
  | some (b, a) =>
    let p := spanNonBrace a
    match p.2 with
    | '}' :: _ => some (b.length + 1 + p.1.length + 1)
    | _ => none

/-- Try the candidate texts-after-the-first-quote in backtracking order (the
pattern's leading `[^\x7b\x7d]*` is greedy, so the rightmost quote of the
brace-free run is tried first); `r` is the whole text after the opening brace,
and a success is the match length within `r`. -/
def tryFirstQuote (r : List Char) : List (List Char) → Option Nat
  | [] => none
  | w :: ws =>
    match matchTail w with
    | some n => some (r.length - w.length + n)
    | none => tryFirstQuote r ws

/-- One attempt of `\x7b[^\x7b\x7d]*"[^"]*"[^\x7b\x7d]*\x7d` at an opening
brace whose following text is `r`: the number of characters of `r` the rest of
the pattern consumes. The first quote lies inside the brace-free run after the
brace; candidates are tried right to left. -/
def regexMatchAtBrace (r : List Char) : Option Nat :=
  let p := spanNonBrace r
  tryFirstQuote r ((afterQuoteSuffixes p.1).reverse.map (fun v => v ++ p.2))

/-- Leftmost match of `re.search(r\x27\x7b[^\x7b\x7d]*"[^"]*"[^\x7b\x7d]*\x7d\x27, text)`
in `ask_router`: scan left to right for an opening brace at which the rest of
the pattern matches. Note the middle `[^"]*` may cross braces, so a match can
cut through nested objects or end at a brace inside a JSON string. -/
def regexSearchFlatObj : List Char → Option (List Char)
  | [] => none
  | c :: rest =>
    if c = '{' then
      match regexMatchAtBrace rest with
      | some n => some ('{' :: rest.take n)
      | none => regexSearchFlatObj rest
    else regexSearchFlatObj rest

/-- Fenced-code-block extraction
(`text.split(sep)[1].split("```")[0].strip()`): the stripped text between the
first occurrence of `sep` and the following occurrence of three backticks. -/
def fence_block (sep : String) (t : String) : String :=
  ⟨stripList (takeUntilSubList "```".data (dropThroughSubList sep.data t.data))⟩

/-- The text-transformation pipeline `ask_router` applies to the raw model
output before its single `json.loads` call: strip; cut a fenced code block out
if one is present; then narrow to the regex match if the regex matches. -/
def music_extract_text (raw : String) : String :=
  let text := pyStrip raw
  let text :=
    if containsSub "```json" text then fence_block "```json" text
    else if containsSub "```" text then fence_block "```" text
    else text
  match regexSearchFlatObj text.data with
  | some m => ⟨m⟩
  | none => text

/-! #### The model-assisted fallback decision (`ask_router`, lines 274-330) -/

/-- Argument fix-up for the search modes: clean `arguments["query"]` (or derive
it from the user query when absent) and default `limit`; a non-dict or
non-string value makes the Python code raise, modelled as `.error`. -/
def fixup_search_args (query : String) (mode : String) (arguments : Json) :
    Except String MusicDecision :=
  match arguments with
  | .obj afs =>
    match lookupField afs "query" with
    | some (.str q) =>
      let afs := updateField afs "query" (.str (_clean_query_from_user_input q))
      .ok ⟨mode, .obj (setdefaultField afs "limit"
        (.num (if mode = "search" then 5 else 1)))⟩
    | some _ => .error "AttributeError"
    | none =>
      let afs := updateField afs "query" (.str (_clean_query_from_user_input query))
      .ok ⟨mode, .obj (setdefaultField afs "limit"
        (.num (if mode = "search" then 5 else 1)))⟩
  | _ => .error "TypeError"

/-- The model-assisted fallback of `MusicMCPClient.ask_router` given the raw
model reply: extract the JSON text, parse it, and validate/normalize the
decision; any failure yields the safe default `chat` decision. -/
def ask_router_fallback (query raw : String) : Except String MusicDecision :=
  match json_loads (music_extract_text raw) with
  | none => .ok ⟨"chat", .obj []⟩
  | some parsed =>
    match parsed with
    | .obj fs =>
      let modeJ := (lookupField fs "mode").getD (.str "chat")
      let argumentsJ := (lookupField fs "arguments").getD (.obj [])
      let arguments := if argumentsJ.truthy then argumentsJ else .obj []
      let mode :=
        match modeJ with
        | .str m => if allowed_modes.contains m then m else "chat"
        | _ => "chat"
      if mode = "search" || mode = "search_and_play" then
        fixup_search_args query mode arguments
      else if mode = "list" then
        match arguments with
        | .obj afs => .ok ⟨mode, .obj (setdefaultField afs "limit" (.num 10))⟩
        | _ => .error "AttributeError"
      else
        .ok ⟨mode, arguments⟩
    | _ => .ok ⟨"chat", .obj []⟩

/-- Source: `MusicMCPClient.ask_router`. The Boolean records whether the model
fallback (`call_ollama`) was invoked; `raw` is the reply the model would give. -/
def ask_router (query raw : String) : Bool × Except String MusicDecision :=
  let query_lower := pyLower query
  if anyWordIn play_trigger_words query_lower then
    (false, .ok ⟨"search_and_play",
      .obj [("query", .str (_clean_query_from_user_input query)), ("limit", .num 1)]⟩)
  else if anyWordIn list_trigger_words query_lower then
    (false, .ok ⟨"list", .obj [("limit", .num 10)]⟩)
  else if anyWordIn search_trigger_words query_lower then
    (false, .ok ⟨"search",
      .obj [("query", .str (_clean_query_from_user_input query)), ("limit", .num 5)]⟩)
  else
    (true, ask_router_fallback query raw)

end Music

/-! ### Config client router (config_mcp_client.py) -/

namespace Config

/-- The substring of `raw` from the first `\x7b` to the last `\x7d` inclusive
(`raw[raw.index("\x7b") : raw.rindex("\x7d") + 1]`); `none` when either brace
is absent (Python raises ValueError, caught by the caller). -/
def bracesSubstring (raw : String) : Option String :=
  match raw.data.findIdx? (· = '{') with
  | none => none
  | some i =>
    match raw.data.reverse.findIdx? (· = '}') with
    | none => none
    | some jr =>
      let j := raw.data.length - 1 - jr
      some ⟨(raw.data.drop i).take (j + 1 - i)⟩

/-- The fallback object `{"tool": "none", "arguments": {}, "raw": raw}`. -/
def fallbackResult (raw : String) : Json :=
  .obj [("tool", .str "none"), ("arguments", .obj []), ("raw", .str raw)]

/-- Source: `call_ollama_for_json` given the raw model reply: direct parse;
else parse of the first-`\x7b`-to-last-`\x7d` substring; else the fallback
object. Never fails. -/
def call_ollama_for_json (raw : String) : Json :=
  match json_loads raw with
  | some v => v
  | none =>
    match bracesSubstring raw with
    | some sub =>
      match json_loads sub with
      | some v => v
      | none => fallbackResult raw
    | none => fallbackResult raw

/-- Source: `ConfigMCPClient.ask_router` — normalize the parsed result into
`(tool, arguments)`. On a non-dict result, `result.get` raises AttributeError
(the annotation of `call_ollama_for_json` promises a dict, but a valid
non-object JSON reply violates it). -/
def ask_router (raw : String) : Except String (Json × Json) :=
  match call_ollama_for_json raw with
  | .obj fs =>
    let tool := (lookupField fs "tool").getD (.str "none")
    let argumentsJ := (lookupField fs "arguments").getD (.obj [])
    let arguments := if argumentsJ.isObj then argumentsJ else .obj []
    .ok (tool, arguments)
  | _ => .error "AttributeError"

/-- The routing outcome of `ConfigMCPClient.process_question` before any tool
result is rendered: plain chat, a tool invocation, the no-tools guard message,
or the outer `except` handler's internal-error reply. -/
inductive Outcome where
  | noTools
  | chat
  | toolCall (name : String) (arguments : Json)
  | internalError (msg : String)

/-- Source: `ConfigMCPClient.process_question`, routing part (lines 223-258):
ask the router; `"none"` or an unknown tool downgrades to plain chat; an
exception inside the `try` is caught and surfaced as an internal-error reply.
A non-string tool value compares unequal to `"none"`; if it is hashable
(number, boolean, null) the `not in self.tools` test downgrades to chat, while
an unhashable list or dict value makes that test raise TypeError. -/
def process_question_route (registry : List String) (raw : String) : Outcome :=
  if registry.isEmpty then .noTools
  else
    match ask_router raw with
    | .error e => .internalError e
    | .ok (tool, arguments) =>
      match tool with
      | .str s => if s = "none" || !registry.contains s then .chat
          else .toolCall s arguments
      | .arr _ => .internalError "TypeError"
      | .obj _ => .internalError "TypeError"
      | _ => .chat

end Config

/-! ### Music server tools (mcp_server_music/mcp_server.py) -/

namespace MusicServer

/-- A scanned music file: its stem (file name without suffix) and the string
of its resolved absolute path, as `_make_track_dict` consumes them. The disk
scan itself (`_scan_all_music_files`) is the external collaborator; the list
of scanned files is a parameter. -/
structure MusicFile where
  stem : String
  resolved : String

/-- Source: `_make_track_dict`. -/
def _make_track_dict (idx : Int) (f : MusicFile) : Json :=
  .obj [("track_id", .num idx), ("track_name", .str f.stem),
        ("artist_name", .null), ("album_name", .null),
        ("file_path", .str f.resolved)]

/-- Source: tool `list_local_music(limit)` applied to the scanned files. -/
def list_local_music (files : List MusicFile) (limit : Int) : List Json :=
  if files.isEmpty then []
  else
    let limit := max 1 (min limit 500)
    let files := files.take limit.toNat
    files.enum.map (fun p => _make_track_dict ((p.1 : Int) + 1) p.2)

/-- Source: tool `search_local_music(query, limit)` applied to the scanned
files; a blank query raises ValueError, modelled as `.error`. -/
def search_local_music (files : List MusicFile) (query : String) (limit : Int) :
    Except String (List Json) :=
  if query = "" || pyStrip query = "" then .error "query không được để trống"
  else
    let query_norm := pyLower (pyStrip query)
    if files.isEmpty then .ok []
    else
      let hits := files.filter (fun f => containsSub query_norm (pyLower f.stem))
      if hits.isEmpty then .ok []
      else
        let limit := max 1 (min limit 500)
        .ok ((hits.take limit.toNat).enum.map
          (fun p => _make_track_dict ((p.1 : Int) + 1) p.2))

end MusicServer

/-! ### Play-mode composer (mcp_client.py, `process_query`, search_and_play) -/

namespace Music

/-- The alias keys `_extract_track_info` walks for the track name. -/
def name_keys : List String := ["track_name", "name", "title", "song_name"]

/-- The alias keys `_extract_track_info` walks for the file path. -/
def path_keys : List String := ["file_path", "path", "file", "filepath"]

/-- Python `key in track_data`: key lookup on a dict, substring test on a
string, membership on a list; a TypeError on other values. -/
def pyContainsKey (track : Json) (key : String) : Except String Bool :=
  match track with
  | .obj fs => .ok (lookupField fs key).isSome
  | .str s => .ok (containsSub key s)
  | .arr items => .ok (items.any (fun j =>
      match j with
      | .str t => t = key
      | _ => false))
  | _ => .error "TypeError"

/-- Python `track_data[key]` with a string key: only dicts support it. -/
def pyGetItem (track : Json) (key : String) : Except String Json :=
  match track with
  | .obj fs =>
    match lookupField fs key with
    | some v => .ok v
    | none => .error "KeyError"
  | _ => .error "TypeError"

/-- The alias-walk loop of `_extract_track_info`: the first key present with
a truthy value. -/
def first_truthy_value (track : Json) : List String → Except String (Option Json)
  | [] => .ok none
  | k :: rest => do
    let c ← pyContainsKey track k
    if c then do
      let v ← pyGetItem track k
      if v.truthy then .ok (some v) else first_truthy_value track rest
    else first_truthy_value track rest

/-- Source: `MusicMCPClient._extract_track_info` — `(track_name, file_path)`,
the name defaulting to the sentinel. -/
def _extract_track_info (track : Json) : Except String (Json × Option Json) := do
  let nm ← first_truthy_value track name_keys
  let fp ← first_truthy_value track path_keys
  .ok (nm.getD (.str "Unknown track"), fp)

/-- Message for an empty search result (`process_query`, line 394). -/
def not_found_message (search_query : String) : String :=
  "😕 Không tìm thấy bài hát nào trùng với từ khóa \x27" ++ search_query ++ "\x27."

/-- Message for a dispatched playback (`process_query`, line 423). -/
def success_message (track_name : String) : String :=
  "▶️ Đang phát: **" ++ track_name ++
    "**\n\nĐây là bài hát phù hợp nhất với yêu cầu của bạn."

/-- Message when the selected record has no locator (`process_query`, 426). -/
def no_locator_message (track_name : String) : String :=
  "❌ Không thể phát bài \x27" ++ track_name ++
    "\x27. File path không tồn tại trong dữ liệu."

/-- Message when the locator's target file does not exist (`process_query`,
line 428). -/
def missing_file_message (track_name path : String) : String :=
  "❌ Không thể phát bài \x27" ++ track_name ++ "\x27. File không tồn tại: " ++ path

/-- The composer's play-mode result: the playback target handed to
`play_audio_from_path`, if any, and the user-facing message. -/
structure PlayOutcome where
  dispatched : Option String
  message : String

/-- Source: `process_query`, search_and_play branch (lines 392-428), with
`os.path.exists` as the external predicate `fileExists`; an exception inside
the branch — including `os.path.exists` on a truthy non-string locator — is
caught by the outer handler (line 433). -/
def search_and_play_compose (search_query : String) (tracks : List Json)
    (fileExists : String → Bool) : PlayOutcome :=
  match tracks with
  | [] => ⟨none, not_found_message search_query⟩
  | selected :: _ =>
    match _extract_track_info selected with
    | .error e => ⟨none, "❌ Lỗi nội bộ: " ++ e⟩
    | .ok (nameJ, pathOpt) =>
      match pathOpt with
      | some (.str p) =>
        if fileExists p then ⟨some p, success_message (pyToStr nameJ)⟩
        else ⟨none, missing_file_message (pyToStr nameJ) p⟩
      | some _ => ⟨none, "❌ Lỗi nội bộ: TypeError"⟩
      | none => ⟨none, no_locator_message (pyToStr nameJ)⟩

end Music

/-! ### Gmail client keyword extraction (mcp_client/test.py) -/

namespace GmailTest

/-- Source: `STOPWORDS_VI` in test.py. -/
def STOPWORDS_VI : List String :=
  ["cho", "tôi", "toi", "tớ", "minh", "mình", "xin", "xem",
   "cái", "cai", "nào", "nao", "gì", "gi", "nói", "noi", "về", "ve",
   "mail", "email", "thư", "thu", "gửi", "gui", "nữa", "nua", "đi",
   "di", "với", "voi", "và", "va", "là", "la", "bị", "bi", "được",
   "duoc", "của", "cua", "ở", "tai", "trong", "trên", "tren", "này",
   "nay", "kia", "ấy", "ay"]

/-- Source: `STOPWORDS_EN` in test.py. -/
def STOPWORDS_EN : List String :=
  ["show", "me", "the", "email", "mail", "about", "please", "give",
   "what", "did", "say", "from", "to", "of", "a", "an"]

/-- The punctuation class of `normalize_text`'s first regex. -/
def punct_chars : List Char :=
  ['.', ',', '!', '?', ';', ':', '(', ')', '[', ']', '"', '\x27']

/-- Source: `normalize_text` — lower-case, punctuation to spaces, whitespace
runs collapsed, stripped (`re.sub(r"\s+", " ", t).strip()` equals joining the
whitespace-split words with single spaces). -/
def normalize_text (text : String) : String :=
  let subbed := (pyLower text).data.map (fun c => if punct_chars.contains c then ' ' else c)
  ⟨joinSpList (wordsList subbed)⟩

/-- Source: `extract_keyword` — stopword-filtered tokens of the normalized
query, at most four, joined; the normalized query itself when nothing is
left. -/
def extract_keyword (query : String) : String :=
  let q_norm := normalize_text query
  let tokens := wordsList q_norm.data
  let filtered := tokens.filter
    (fun t => !(STOPWORDS_VI.contains ⟨t⟩ || STOPWORDS_EN.contains ⟨t⟩))
  if filtered.isEmpty then q_norm
  else ⟨joinSpList (filtered.take 4)⟩

end GmailTest

/-! ### Extractor modelled from the claim wording (for claim C4) -/

/-- Modelled from the claim's words (not from the source): one extractor that
attempts, in order, (1) direct parse of the whole trimmed string, (2) the
substring between the first `\x7b` and the last `\x7d`, (3) the content of a
fenced code block if present, (4) the narrow flat-object regex — each later
strategy only when the earlier ones fail. -/
def claimed_json_extraction (raw : String) : Option Json :=
  let t := pyStrip raw
  match json_loads t with
  | some v => some v
  | none =>
    match (Config.bracesSubstring raw).bind json_loads with
    | some v => some v
    | none =>
      match
        (if containsSub "```json" t then json_loads (Music.fence_block "```json" t)
         else if containsSub "```" t then json_loads (Music.fence_block "```" t)
         else none) with
      | some v => some v
      | none => (Music.regexSearchFlatObj t.data).bind (fun m => json_loads ⟨m⟩)

/-! ### Equation lemmas of the normalizer -/

theorem extract_tracks_wrapper {fs : List (String × Json)} {inner : Json}
    (h : lookupField fs "result" = some inner) :
    extract_tracks (.obj fs) = extract_tracks inner := by
  rw [extract_tracks]
  split
  · rename_i inner2 h2
    rw [h] at h2
    cases h2
    rfl
  · rename_i h2
    rw [h] at h2
    cases h2

theorem extract_tracks_plain_obj {fs : List (String × Json)}
    (h : lookupField fs "result" = none) :
    extract_tracks (.obj fs) = [Json.obj fs] := by
  rw [extract_tracks]
  split
  · rename_i inner2 h2
    rw [h] at h2
    cases h2
  · rfl

theorem extract_tracks_arr (items : List Json) :
    extract_tracks (.arr items) = items := by
  simp [extract_tracks]

theorem extract_tracks_null : extract_tracks .null = [] := by
  simp [extract_tracks]

theorem extract_tracks_bool (b : Bool) : extract_tracks (.bool b) = [] := by
  simp [extract_tracks]

theorem extract_tracks_num (n : Int) : extract_tracks (.num n) = [] := by
  simp [extract_tracks]

theorem extract_tracks_str (s : String) : extract_tracks (.str s) = [] := by
  simp [extract_tracks]

/-! ### Claims C3 and C7: the normalizer's rule list and idempotence -/

/-- C3: the normalizer applies exactly the ordered rule list — a mapping
containing the reserved key `result` recurses into that key's value (to
arbitrary depth); otherwise a sequence yields its elements; otherwise a
mapping yields itself as a single record; any other value yields the empty
sequence; in particular a doubly wrapped list comes back as the inner list. -/
theorem claim_C3_normalizer_rule_list :
    (∀ fs inner, lookupField fs "result" = some inner →
      extract_tracks (.obj fs) = extract_tracks inner) ∧
    (∀ items, extract_tracks (.arr items) = items) ∧
    (∀ fs, lookupField fs "result" = none →
      extract_tracks (.obj fs) = [Json.obj fs]) ∧
    (extract_tracks .null = [] ∧ (∀ b, extract_tracks (.bool b) = []) ∧
      (∀ n, extract_tracks (.num n) = []) ∧ (∀ s, extract_tracks (.str s) = [])) ∧
    (∀ r1 rest, extract_tracks
        (.obj [("result", .obj [("result", .arr (r1 :: rest))])]) = r1 :: rest) := by
  refine ⟨fun _ _ h => extract_tracks_wrapper h, extract_tracks_arr,
    fun _ h => extract_tracks_plain_obj h,
    ⟨extract_tracks_null, extract_tracks_bool, extract_tracks_num, extract_tracks_str⟩,
    fun r1 rest => ?_⟩
  have h1 : lookupField [("result", Json.obj [("result", Json.arr (r1 :: rest))])] "result"
      = some (Json.obj [("result", Json.arr (r1 :: rest))]) := rfl
  have h2 : lookupField [("result", Json.arr (r1 :: rest))] "result"
      = some (Json.arr (r1 :: rest)) := rfl
  rw [extract_tracks_wrapper h1, extract_tracks_wrapper h2, extract_tracks_arr]

/-- C7: the normalizer is the identity on a plain sequence of non-wrapper
record mappings, so normalizing its own (re-fed) output changes nothing. -/
theorem claim_C7_normalizer_idempotent (L : List Json)
    (_h : ∀ j ∈ L, ∃ fs, j = Json.obj fs ∧ lookupField fs "result" = none) :
    extract_tracks (.arr L) = L ∧
      extract_tracks (.arr (extract_tracks (.arr L))) = extract_tracks (.arr L) := by
  exact ⟨extract_tracks_arr L, by rw [extract_tracks_arr]⟩

/-- Witness for C7 at a concrete one-record list. -/
theorem claim_C7_normalizer_idempotent_witness :
    extract_tracks (.arr [Json.obj [("track_name", .str "a")]]) =
        [Json.obj [("track_name", .str "a")]] ∧
      extract_tracks (.arr (extract_tracks (.arr [Json.obj [("track_name", .str "a")]]))) =
        extract_tracks (.arr [Json.obj [("track_name", .str "a")]]) := by
  refine claim_C7_normalizer_idempotent _ ?_
  intro j hj
  simp only [List.mem_singleton] at hj
  exact ⟨_, hj, rfl⟩

/-! ### Claim C2: the rule-first fast path -/

/-- C2: a query containing a rule-first trigger word gets the mapped decision
deterministically, the keyword sets checked play-before-list-before-search
with the first matching set winning, and the model fallback is never invoked
(the result is independent of the model reply and the flag stays `false`). -/
theorem claim_C2_rule_first_path (query raw : String) :
    (Music.anyWordIn Music.play_trigger_words (pyLower query) = true →
      Music.ask_router query raw = (false, .ok ⟨"search_and_play",
        .obj [("query", .str (Music._clean_query_from_user_input query)),
              ("limit", .num 1)]⟩)) ∧
    (Music.anyWordIn Music.play_trigger_words (pyLower query) = false →
      Music.anyWordIn Music.list_trigger_words (pyLower query) = true →
      Music.ask_router query raw = (false, .ok ⟨"list", .obj [("limit", .num 10)]⟩)) ∧
    (Music.anyWordIn Music.play_trigger_words (pyLower query) = false →
      Music.anyWordIn Music.list_trigger_words (pyLower query) = false →
      Music.anyWordIn Music.search_trigger_words (pyLower query) = true →
      Music.ask_router query raw = (false, .ok ⟨"search",
        .obj [("query", .str (Music._clean_query_from_user_input query)),
              ("limit", .num 5)]⟩)) ∧
    ((Music.anyWordIn Music.play_trigger_words (pyLower query) ||
      Music.anyWordIn Music.list_trigger_words (pyLower query) ||
      Music.anyWordIn Music.search_trigger_words (pyLower query)) = true →
      (Music.ask_router query raw).1 = false) := by
  unfold Music.ask_router
  refine ⟨fun h1 => ?_, fun h1 h2 => ?_, fun h1 h2 h3 => ?_, fun h => ?_⟩
  · simp [h1]
  · simp [h1, h2]
  · simp [h1, h2, h3]
  · rcases Bool.or_eq_true_iff.mp h with h' | h3
    · rcases Bool.or_eq_true_iff.mp h' with h1 | h2
      · simp [h1]
      · by_cases h1 : Music.anyWordIn Music.play_trigger_words (pyLower query) <;>
          simp [h1, h2]
    · by_cases h1 : Music.anyWordIn Music.play_trigger_words (pyLower query) <;>
        by_cases h2 : Music.anyWordIn Music.list_trigger_words (pyLower query) <;>
          simp [h1, h2, h3]

/-! ### Claims C9 and C10: the music server tools -/

theorem clamp_of_nonpos {limit : Int} (h : limit ≤ 0) :
    max 1 (min limit 500) = max 1 (min (1 : Int) 500) := by
  omega

theorem clamp_of_large {limit : Int} (h : 500 ≤ limit) :
    max 1 (min limit 500) = max 1 (min (500 : Int) 500) := by
  omega

/-- C9: both tools return at most `max 1 (min limit 500)` tracks; a
non-positive limit behaves exactly as limit 1 and a limit above 500 exactly as
limit 500. -/
theorem claim_C9_limit_clamped :
    (∀ files limit,
      (MusicServer.list_local_music files limit).length ≤ (max 1 (min limit 500)).toNat) ∧
    (∀ files q limit l, MusicServer.search_local_music files q limit = .ok l →
      l.length ≤ (max 1 (min limit 500)).toNat) ∧
    (∀ files limit, limit ≤ 0 →
      MusicServer.list_local_music files limit = MusicServer.list_local_music files 1) ∧
    (∀ files limit, 500 ≤ limit →
      MusicServer.list_local_music files limit = MusicServer.list_local_music files 500) ∧
    (∀ files q limit, limit ≤ 0 →
      MusicServer.search_local_music files q limit =
        MusicServer.search_local_music files q 1) ∧
    (∀ files q limit, 500 ≤ limit →
      MusicServer.search_local_music files q limit =
        MusicServer.search_local_music files q 500) := by
  refine ⟨fun files limit => ?_, fun files q limit l h => ?_,
    fun files limit h => ?_, fun files limit h => ?_,
    fun files q limit h => ?_, fun files q limit h => ?_⟩
  · unfold MusicServer.list_local_music
    split
    · simp
    · simp only [List.length_map, List.enum_length]
      exact le_trans (List.length_take_le _ _) (le_refl _)
  · unfold MusicServer.search_local_music at h
    dsimp only at h
    split at h
    · cases h
    · split at h
      · cases h
        simp
      · split at h
        · cases h
          simp
        · cases h
          simp only [List.length_map, List.enum_length]
          exact le_trans (List.length_take_le _ _) (le_refl _)
  · unfold MusicServer.list_local_music
    rw [clamp_of_nonpos h]
  · unfold MusicServer.list_local_music
    rw [clamp_of_large h]
  · unfold MusicServer.search_local_music
    rw [clamp_of_nonpos h]
  · unfold MusicServer.search_local_music
    rw [clamp_of_large h]

/-- C10: `search_local_music` raises ValueError exactly on an empty or
all-whitespace query; every non-blank query yields a (possibly empty) result
list instead of an exception. -/
theorem claim_C10_blank_query_iff_error :
    (∀ files q limit,
      MusicServer.search_local_music files q limit =
          .error "query không được để trống" ↔ (q = "" ∨ pyStrip q = "")) ∧
    (∀ files q limit, ¬(q = "" ∨ pyStrip q = "") →
      ∃ l, MusicServer.search_local_music files q limit = .ok l) := by
  constructor
  · intro files q limit
    unfold MusicServer.search_local_music
    by_cases hq : (q = "" ∨ pyStrip q = "")
    · simp [hq]
    · have hb : (decide (q = "") || decide (pyStrip q = "")) = false := by
        simp at hq ⊢
        exact hq
      rw [hb]
      simp only [Bool.false_eq_true, if_false]
      constructor
      · intro h
        split at h <;> [cases h; skip]
        split at h <;> [cases h; cases h]
      · intro h
        exact absurd h hq
  · intro files q limit hq
    unfold MusicServer.search_local_music
    have hb : (decide (q = "") || decide (pyStrip q = "")) = false := by
      simp at hq ⊢
      exact hq
    rw [hb]
    simp only [Bool.false_eq_true, if_false]
    split
    · exact ⟨[], rfl⟩
    · split
      · exact ⟨[], rfl⟩
      · exact ⟨_, rfl⟩

/-! ### Claim C1: safe-default behaviour of the two routers -/

/-- C1 (failing side): on the raw model reply `[1, 2]` — valid JSON that is
not an object — the config client's `ask_router` calls `.get` on a list and
raises AttributeError; `process_question`'s outer handler turns it into an
internal-error reply instead of the claimed safe-default plain chat. The
music router, by contrast, does return its safe default on the same reply. -/
theorem claim_C1_config_nonobject_not_safe_default :
    Config.process_question_route ["gmail_list_today_unread"] "[1, 2]" =
        Config.Outcome.internalError "AttributeError" ∧
      Config.process_question_route ["gmail_list_today_unread"] "[1, 2]" ≠
        Config.Outcome.chat ∧
      Music.ask_router_fallback "hi" "[1, 2]" = .ok ⟨"chat", .obj []⟩ := by
  refine ⟨rfl, ?_, rfl⟩
  intro h
  rw [show Config.process_question_route ["gmail_list_today_unread"] "[1, 2]" =
      Config.Outcome.internalError "AttributeError" from rfl] at h
  cases h

/-! ### Claim C4: the JSON-extraction strategy order -/

/-- C4 counterexample: on `x \x7b"arguments": \x7b"q": "a"\x7d, "mode": "search"\x7d`
the claimed strategy order stops at strategy (2) with the full parsed object,
but the music router\x27s actual extraction regex-narrows the text to the
truncated `\x7b"arguments": \x7b"q": "a"\x7d` (the pattern\x27s middle `[^"]*`
crosses the inner brace), whose parse fails, so the router falls back to the
chat default — the strategies are neither those of the claim nor tried in its
order. -/
theorem claim_C4_counterexample :
    claimed_json_extraction "x \x7b\"arguments\": \x7b\"q\": \"a\"\x7d, \"mode\": \"search\"\x7d" =
        some (.obj [("arguments", .obj [("q", .str "a")]), ("mode", .str "search")]) ∧
      Music.music_extract_text "x \x7b\"arguments\": \x7b\"q\": \"a\"\x7d, \"mode\": \"search\"\x7d" =
        "\x7b\"arguments\": \x7b\"q\": \"a\"\x7d" ∧
      json_loads (Music.music_extract_text
          "x \x7b\"arguments\": \x7b\"q\": \"a\"\x7d, \"mode\": \"search\"\x7d") = none ∧
      Music.ask_router_fallback "hi"
          "x \x7b\"arguments\": \x7b\"q\": \"a\"\x7d, \"mode\": \"search\"\x7d" =
        .ok ⟨"chat", .obj []⟩ ∧
      claimed_json_extraction "x \x7b\"arguments\": \x7b\"q\": \"a\"\x7d, \"mode\": \"search\"\x7d" ≠
        json_loads (Music.music_extract_text
          "x \x7b\"arguments\": \x7b\"q\": \"a\"\x7d, \"mode\": \"search\"\x7d") := by
  refine ⟨rfl, rfl, rfl, rfl, ?_⟩
  intro h
  rw [show claimed_json_extraction
        "x \x7b\"arguments\": \x7b\"q\": \"a\"\x7d, \"mode\": \"search\"\x7d" =
      some (.obj [("arguments", .obj [("q", .str "a")]), ("mode", .str "search")]) from rfl,
    show json_loads (Music.music_extract_text
        "x \x7b\"arguments\": \x7b\"q\": \"a\"\x7d, \"mode\": \"search\"\x7d") =
      none from rfl] at h
  cases h

/-- C4 amended: the two routers extract differently. The config router
attempts, in order and each only when the earlier fails: direct parse, parse
of the first-`\x7b`-to-last-`\x7d` substring, then the fixed fallback object.
The music router instead transforms the stripped text — cutting out a fenced
code block when one is present, then narrowing to the leftmost match of the
flat-object regex when it matches (its middle `[^"]*` may cross braces, so
the match can truncate nested objects or run past braces inside strings and
need not be parseable) — and then performs a single direct parse. -/
theorem claim_C4_amended_extraction_order :
    (∀ raw v, json_loads raw = some v → Config.call_ollama_for_json raw = v) ∧
    (∀ raw sub v, json_loads raw = none → Config.bracesSubstring raw = some sub →
      json_loads sub = some v → Config.call_ollama_for_json raw = v) ∧
    (∀ raw, json_loads raw = none →
      (Config.bracesSubstring raw).bind json_loads = none →
      Config.call_ollama_for_json raw = Config.fallbackResult raw) ∧
    (∀ raw, containsSub "```json" (pyStrip raw) = false →
      containsSub "```" (pyStrip raw) = false →
      Music.regexSearchFlatObj (pyStrip raw).data = none →
      Music.music_extract_text raw = pyStrip raw) ∧
    (∀ raw m, containsSub "```json" (pyStrip raw) = false →
      containsSub "```" (pyStrip raw) = false →
      Music.regexSearchFlatObj (pyStrip raw).data = some m →
      Music.music_extract_text raw = ⟨m⟩) ∧
    (∀ raw, containsSub "```json" (pyStrip raw) = true →
      Music.music_extract_text raw =
        (match Music.regexSearchFlatObj (Music.fence_block "```json" (pyStrip raw)).data with
         | some m => (⟨m⟩ : String)
         | none => Music.fence_block "```json" (pyStrip raw))) := by
  refine ⟨fun raw v h => ?_, fun raw sub v h1 h2 h3 => ?_, fun raw h1 h2 => ?_,
    fun raw h1 h2 h3 => ?_, fun raw m h1 h2 h3 => ?_, fun raw h1 => ?_⟩
  · unfold Config.call_ollama_for_json
    rw [h]
  · unfold Config.call_ollama_for_json
    rw [h1, h2]
    dsimp only
    rw [h3]
  · unfold Config.call_ollama_for_json
    rw [h1]
    cases hb : Config.bracesSubstring raw with
    | none => rfl
    | some sub =>
      rw [hb] at h2
      dsimp only
      rw [show (some sub).bind json_loads = json_loads sub from rfl] at h2
      rw [h2]
  · unfold Music.music_extract_text
    simp [h1, h2, h3]
  · unfold Music.music_extract_text
    simp [h1, h2, h3]
  · unfold Music.music_extract_text
    simp [h1]

/-! ### Field-update lemmas for the router argument fix-up -/

theorem lookupField_updateField_self :
    ∀ (fs : List (String × Json)) (k : String) (v : Json),
      lookupField (updateField fs k v) k = some v
  | [], k, v => by simp [updateField, lookupField]
  | (k0, w) :: rest, k, v => by
    by_cases h : k0 = k
    · subst h
      simp [updateField, lookupField]
    · simp only [updateField, lookupField, h, if_false]
      exact lookupField_updateField_self rest k v

theorem lookupField_updateField_ne :
    ∀ (fs : List (String × Json)) (k k2 : String) (v : Json), k ≠ k2 →
      lookupField (updateField fs k v) k2 = lookupField fs k2
  | [], k, k2, v, h => by simp [updateField, lookupField, h]
  | (k0, w) :: rest, k, k2, v, h => by
    by_cases h0 : k0 = k
    · subst h0
      simp [updateField, lookupField, h]
    · simp only [updateField, lookupField, h0, if_false]
      by_cases h2 : k0 = k2
      · simp [h2]
      · simp only [h2, if_false]
        exact lookupField_updateField_ne rest k k2 v h

theorem lookupField_append :
    ∀ (l l2 : List (String × Json)) (k : String),
      lookupField (l ++ l2) k =
        (match lookupField l k with
         | some v => some v
         | none => lookupField l2 k)
  | [], l2, k => by simp [lookupField]
  | (k0, w) :: rest, l2, k => by
    by_cases h : k0 = k
    · simp [lookupField, h]
    · simp only [List.cons_append, lookupField, h, if_false]
      exact lookupField_append rest l2 k

theorem lookup_setdefault_other (fs : List (String × Json)) (k k2 : String)
    (v : Json) (hne : k ≠ k2) :
    lookupField (setdefaultField fs k v) k2 = lookupField fs k2 := by
  unfold setdefaultField
  cases h : lookupField fs k with
  | some w => rfl
  | none =>
    rw [lookupField_append]
    cases h2 : lookupField fs k2 with
    | some w => rfl
    | none => simp [lookupField, hne]

theorem lookup_setdefault_self_none (fs : List (String × Json)) (k : String)
    (v : Json) (h : lookupField fs k = none) :
    lookupField (setdefaultField fs k v) k = some v := by
  unfold setdefaultField
  rw [h, lookupField_append, h]
  simp [lookupField]

theorem lookup_setdefault_self_some (fs : List (String × Json)) (k : String)
    (v w : Json) (h : lookupField fs k = some w) :
    lookupField (setdefaultField fs k v) k = some w := by
  unfold setdefaultField
  rw [h]
  exact h

/-! ### Claim C6: round-trip of a valid model decision -/

/-- C6 counterexample: the model reply declares `mode: search` with the
arguments mapping `\x7b\x7d`, but the music router does not return those
arguments unchanged — it injects the cleaned user query and the default
limit. -/
theorem claim_C6_counterexample :
    Music.ask_router_fallback "hello" "\x7b\"mode\": \"search\", \"arguments\": \x7b\x7d\x7d" =
        .ok ⟨"search", .obj [("query", .str "hello"), ("limit", .num 5)]⟩ ∧
      Music.ask_router_fallback "hello" "\x7b\"mode\": \"search\", \"arguments\": \x7b\x7d\x7d" ≠
        .ok ⟨"search", .obj []⟩ := by
  refine ⟨rfl, ?_⟩
  intro h
  rw [show Music.ask_router_fallback "hello"
        "\x7b\"mode\": \"search\", \"arguments\": \x7b\x7d\x7d" =
      .ok ⟨"search", .obj [("query", .str "hello"), ("limit", .num 5)]⟩ from rfl] at h
  simp at h

/-- C6 amended: the config router round-trips the declared tool exactly and,
when the declared arguments value is a mapping, the arguments exactly. The
music router decides from the fence/regex-narrowed text rather than the raw
reply (the narrowing can break even valid JSON replies); whenever that
narrowed text parses to an object whose declared mode is allowed, whose
declared arguments value is a mapping or absent, and whose declared query
value (if any) is a string, the mode is returned exactly,
but the arguments round-trip unchanged only in chat mode: in the search and
search_and_play modes the query is overwritten with its cleaned form (or
derived from the user text when absent) and a missing limit gets the
mode-dependent default, and in list mode a missing limit gets the default 10;
a declared limit is preserved in all modes. -/
theorem claim_C6_amended_round_trip :
    (∀ raw fs t as, json_loads raw = some (.obj fs) →
      lookupField fs "tool" = some t →
      lookupField fs "arguments" = some (.obj as) →
      Config.ask_router raw = .ok (t, .obj as)) ∧
    (∀ q raw fs a as, json_loads (Music.music_extract_text raw) = some (.obj fs) →
      lookupField fs "mode" = some (.str "chat") →
      lookupField fs "arguments" = some (.obj (a :: as)) →
      Music.ask_router_fallback q raw = .ok ⟨"chat", .obj (a :: as)⟩) ∧
    (∀ q raw fs m, json_loads (Music.music_extract_text raw) = some (.obj fs) →
      lookupField fs "mode" = some (.str m) →
      Music.allowed_modes.contains m = true →
      lookupField fs "arguments" = none →
      ∃ args, Music.ask_router_fallback q raw = .ok ⟨m, args⟩) ∧
    (∀ q raw fs m afs qv, json_loads (Music.music_extract_text raw) = some (.obj fs) →
      lookupField fs "mode" = some (.str m) →
      (m = "search" ∨ m = "search_and_play") →
      lookupField fs "arguments" = some (.obj afs) →
      lookupField afs "query" = some (.str qv) →
      ∃ afs2, Music.ask_router_fallback q raw = .ok ⟨m, .obj afs2⟩ ∧
        lookupField afs2 "query" =
          some (.str (Music._clean_query_from_user_input qv)) ∧
        (lookupField afs "limit" = none →
          lookupField afs2 "limit" = some (.num (if m = "search" then 5 else 1))) ∧
        (∀ lv, lookupField afs "limit" = some lv →
          lookupField afs2 "limit" = some lv)) ∧
    (∀ q raw fs m afs, json_loads (Music.music_extract_text raw) = some (.obj fs) →
      lookupField fs "mode" = some (.str m) →
      (m = "search" ∨ m = "search_and_play") →
      lookupField fs "arguments" = some (.obj afs) →
      lookupField afs "query" = none →
      ∃ afs2, Music.ask_router_fallback q raw = .ok ⟨m, .obj afs2⟩ ∧
        lookupField afs2 "query" =
          some (.str (Music._clean_query_from_user_input q)) ∧
        (lookupField afs "limit" = none →
          lookupField afs2 "limit" = some (.num (if m = "search" then 5 else 1))) ∧
        (∀ lv, lookupField afs "limit" = some lv →
          lookupField afs2 "limit" = some lv)) ∧
    (∀ q raw fs afs, json_loads (Music.music_extract_text raw) = some (.obj fs) →
      lookupField fs "mode" = some (.str "list") →
      lookupField fs "arguments" = some (.obj afs) →
      ∃ afs2, Music.ask_router_fallback q raw = .ok ⟨"list", .obj afs2⟩ ∧
        (lookupField afs "limit" = none →
          lookupField afs2 "limit" = some (.num 10)) ∧
        (∀ lv, lookupField afs "limit" = some lv →
          lookupField afs2 "limit" = some lv)) := by
  have hor : ∀ afs : List (String × Json),
      (if (Json.obj afs).truthy then Json.obj afs else Json.obj []) = Json.obj afs := by
    intro afs
    cases afs <;> simp [Json.truthy]
  refine ⟨fun raw fs t as h ht ha => ?_, fun q raw fs a as h hm ha => ?_,
    fun q raw fs m h hm hallow ha => ?_, fun q raw fs m afs qv h hm hms ha hq => ?_,
    fun q raw fs m afs h hm hms ha hq => ?_, fun q raw fs afs h hm ha => ?_⟩
  · have hc : Config.call_ollama_for_json raw = .obj fs := by
      unfold Config.call_ollama_for_json
      rw [h]
    unfold Config.ask_router
    rw [hc]
    dsimp only
    rw [ht, ha]
    rfl
  · unfold Music.ask_router_fallback
    rw [h]
    dsimp only
    rw [hm, ha]
    simp [Music.allowed_modes, Json.truthy]
  · unfold Music.ask_router_fallback
    rw [h]
    dsimp only
    rw [hm, ha]
    simp only [Option.getD_some, Option.getD_none, hallow, if_true]
    by_cases h1 : m = "search"
    · subst h1
      exact ⟨_, rfl⟩
    · by_cases h2 : m = "search_and_play"
      · subst h2
        exact ⟨_, rfl⟩
      · by_cases h3 : m = "list"
        · subst h3
          exact ⟨_, rfl⟩
        · simp [h1, h2, h3, Json.truthy]
  · -- search / search_and_play with a declared string query
    have hres : Music.ask_router_fallback q raw =
        Music.fixup_search_args q m (Json.obj afs) := by
      unfold Music.ask_router_fallback
      rw [h]
      dsimp only
      rw [hm, ha]
      simp only [Option.getD_some, hor]
      rcases hms with h1 | h1 <;> subst h1 <;> simp [Music.allowed_modes]
    unfold Music.fixup_search_args at hres
    dsimp only at hres
    rw [hq] at hres
    dsimp only at hres
    refine ⟨_, hres, ?_, ?_, ?_⟩
    · rw [lookup_setdefault_other _ _ _ _ (by decide)]
      exact lookupField_updateField_self afs "query" _
    · intro hnone
      exact lookup_setdefault_self_none _ _ _
        ((lookupField_updateField_ne afs "query" "limit" _ (by decide)).trans hnone)
    · intro lv hsome
      exact lookup_setdefault_self_some _ _ _ _
        ((lookupField_updateField_ne afs "query" "limit" _ (by decide)).trans hsome)
  · -- search / search_and_play with the query absent
    have hres : Music.ask_router_fallback q raw =
        Music.fixup_search_args q m (Json.obj afs) := by
      unfold Music.ask_router_fallback
      rw [h]
      dsimp only
      rw [hm, ha]
      simp only [Option.getD_some, hor]
      rcases hms with h1 | h1 <;> subst h1 <;> simp [Music.allowed_modes]
    unfold Music.fixup_search_args at hres
    dsimp only at hres
    rw [hq] at hres
    dsimp only at hres
    refine ⟨_, hres, ?_, ?_, ?_⟩
    · rw [lookup_setdefault_other _ _ _ _ (by decide)]
      exact lookupField_updateField_self afs "query" _
    · intro hnone
      exact lookup_setdefault_self_none _ _ _
        ((lookupField_updateField_ne afs "query" "limit" _ (by decide)).trans hnone)
    · intro lv hsome
      exact lookup_setdefault_self_some _ _ _ _
        ((lookupField_updateField_ne afs "query" "limit" _ (by decide)).trans hsome)
  · -- list mode
    have hres : Music.ask_router_fallback q raw =
        .ok ⟨"list", .obj (setdefaultField afs "limit" (.num 10))⟩ := by
      unfold Music.ask_router_fallback
      rw [h]
      dsimp only
      rw [hm, ha]
      simp only [Option.getD_some, hor]
      simp [Music.allowed_modes]
    refine ⟨_, hres, ?_, ?_⟩
    · intro hnone
      exact lookup_setdefault_self_none _ _ _ hnone
    · intro lv hsome
      exact lookup_setdefault_self_some _ _ _ _ hsome

/-! ### Claim C8: the play-mode composer -/

theorem failure_messages_distinct (n p : String) :
    Music.no_locator_message n ≠ Music.missing_file_message n p := by
  intro h
  have hd : ("❌ Không thể phát bài \x27".data ++ n.data) ++
        "\x27. File path không tồn tại trong dữ liệu.".data
      = (("❌ Không thể phát bài \x27".data ++ n.data) ++
        "\x27. File không tồn tại: ".data) ++ p.data := congrArg String.data h
  simp only [List.append_assoc] at hd
  have h2 := List.append_cancel_left hd
  have h3 := List.append_cancel_left h2
  have h8 := congrArg (fun l => l[8]?) h3
  simp only at h8
  rw [List.getElem?_append_left
    (by decide : 8 < "\x27. File không tồn tại: ".data.length)] at h8
  exact absurd h8 (by decide)

/-- C8: in play mode only the first record is consulted; a present locator
whose target exists dispatches playback with the success message; the two
failure cases — no locator in the data, and a locator whose target file does
not exist — produce two messages that are never equal. -/
theorem claim_C8_play_mode_first_record_and_failures :
    (∀ sq t rest fx, Music.search_and_play_compose sq (t :: rest) fx =
      Music.search_and_play_compose sq [t] fx) ∧
    (∀ sq t rest fx n p, Music._extract_track_info t = .ok (n, some (.str p)) →
      fx p = true →
      Music.search_and_play_compose sq (t :: rest) fx =
        ⟨some p, Music.success_message (pyToStr n)⟩) ∧
    (∀ sq t rest fx n, Music._extract_track_info t = .ok (n, none) →
      Music.search_and_play_compose sq (t :: rest) fx =
        ⟨none, Music.no_locator_message (pyToStr n)⟩) ∧
    (∀ sq t rest fx n p, Music._extract_track_info t = .ok (n, some (.str p)) →
      fx p = false →
      Music.search_and_play_compose sq (t :: rest) fx =
        ⟨none, Music.missing_file_message (pyToStr n) p⟩) ∧
    (∀ n p, Music.no_locator_message n ≠ Music.missing_file_message n p) := by
  refine ⟨fun sq t rest fx => rfl, fun sq t rest fx n p hi hfx => ?_,
    fun sq t rest fx n hi => ?_, fun sq t rest fx n p hi hfx => ?_,
    failure_messages_distinct⟩
  · simp [Music.search_and_play_compose, hi, hfx]
  · simp [Music.search_and_play_compose, hi]
  · simp [Music.search_and_play_compose, hi, hfx]

/-! ### Claim C5: the query-cleaning transform -/

theorem wordsAux_word (w : List Char) : ∀ (rest acc : List Char),
    (∀ c ∈ w, isWsChar c = false) →
    wordsAux (w ++ rest) acc = wordsAux rest (w.reverse ++ acc) := by
  induction w with
  | nil => intro rest acc _; simp
  | cons c w ih =>
    intro rest acc h
    have hc : isWsChar c = false := h c (by simp)
    simp only [List.cons_append, wordsAux, hc, Bool.false_eq_true, if_false]
    show wordsAux (w ++ rest) (c :: acc) = wordsAux rest ((c :: w).reverse ++ acc)
    rw [ih rest (c :: acc) (fun d hd => h d (by simp [hd]))]
    simp

theorem wordsAux_good : ∀ (cs acc : List Char), (∀ c ∈ acc, isWsChar c = false) →
    ∀ w ∈ wordsAux cs acc, w ≠ [] ∧ ∀ c ∈ w, isWsChar c = false := by
  intro cs
  induction cs with
  | nil =>
    intro acc hacc w hw
    simp only [wordsAux] at hw
    split at hw
    · cases hw
    · rename_i hne
      simp only [List.mem_singleton] at hw
      subst hw
      refine ⟨fun hnil => hne (by simpa using List.reverse_eq_nil_iff.mp hnil), ?_⟩
      intro c hc
      exact hacc c (List.mem_reverse.mp hc)
  | cons c rest ih =>
    intro acc hacc w hw
    simp only [wordsAux] at hw
    by_cases hc : isWsChar c
    · rw [if_pos hc] at hw
      split at hw
      · exact ih [] (by simp) w hw
      · rename_i hne
        rcases List.mem_cons.mp hw with h1 | h1
        · subst h1
          refine ⟨fun hnil => hne (by simpa using List.reverse_eq_nil_iff.mp hnil), ?_⟩
          intro d hd
          exact hacc d (List.mem_reverse.mp hd)
        · exact ih [] (by simp) w h1
    · rw [if_neg hc] at hw
      refine ih (c :: acc) ?_ w hw
      intro d hd
      rcases List.mem_cons.mp hd with h1 | h1
      · subst h1
        exact Bool.not_eq_true _ ▸ (by simpa using hc)
      · exact hacc d h1

theorem joinSp_ne_nil (w : List Char) (rest : List (List Char)) (hw : w ≠ []) :
    joinSpList (w :: rest) ≠ [] := by
  cases rest with
  | nil => exact hw
  | cons w2 rest2 =>
    show w ++ ' ' :: joinSpList (w2 :: rest2) ≠ []
    simp

theorem wordsList_joinSp : ∀ (ws : List (List Char)),
    (∀ w ∈ ws, w ≠ [] ∧ ∀ c ∈ w, isWsChar c = false) →
    wordsList (joinSpList ws) = ws := by
  intro ws
  induction ws with
  | nil => intro _; rfl
  | cons w rest ih =>
    intro h
    obtain ⟨hne, hchars⟩ := h w (by simp)
    cases rest with
    | nil =>
      show wordsAux (joinSpList [w]) [] = [w]
      have hj : joinSpList [w] = w ++ [] := by simp [joinSpList]
      rw [hj, wordsAux_word w [] [] hchars]
      simp only [wordsAux, List.append_nil]
      rw [if_neg (by simpa using fun hnil => hne (List.reverse_eq_nil_iff.mp hnil))]
      simp
    | cons w2 rest2 =>
      show wordsAux (joinSpList (w :: w2 :: rest2)) [] = w :: w2 :: rest2
      have hj : joinSpList (w :: w2 :: rest2) = w ++ ' ' :: joinSpList (w2 :: rest2) := rfl
      rw [hj, wordsAux_word w _ [] hchars]
      simp only [wordsAux, List.append_nil]
      rw [if_pos (by decide), if_neg (by simpa using fun hnil => hne (List.reverse_eq_nil_iff.mp hnil))]
      rw [List.reverse_reverse]
      exact congrArg (w :: ·) (ih (fun v hv => h v (by simp [hv])))

theorem dropWhile_eq_self_of_head {p : Char → Bool} {cs : List Char}
    (h : ∀ c, cs.head? = some c → p c = false) : cs.dropWhile p = cs := by
  cases cs with
  | nil => rfl
  | cons c rest =>
    rw [List.dropWhile_cons, if_neg]
    simp [h c rfl]

theorem joinSp_head_good (ws : List (List Char))
    (h : ∀ w ∈ ws, w ≠ [] ∧ ∀ c ∈ w, isWsChar c = false) :
    ∀ c, (joinSpList ws).head? = some c → isWsChar c = false := by
  intro c hc
  cases ws with
  | nil => cases hc
  | cons w rest =>
    obtain ⟨hne, hchars⟩ := h w (by simp)
    cases w with
    | nil => exact absurd rfl hne
    | cons c0 w' =>
      have : (joinSpList ((c0 :: w') :: rest)).head? = some c0 := by
        cases rest with
        | nil => rfl
        | cons w2 rest2 => rfl
      rw [this] at hc
      cases hc
      exact hchars c (by simp)

theorem joinSp_getLast_good : ∀ (ws : List (List Char)),
    (∀ w ∈ ws, w ≠ [] ∧ ∀ c ∈ w, isWsChar c = false) →
    ∀ c, (joinSpList ws).getLast? = some c → isWsChar c = false := by
  intro ws
  induction ws with
  | nil => intro _ c hc; cases hc
  | cons w rest ih =>
    intro h c hc
    obtain ⟨hne, hchars⟩ := h w (by simp)
    cases rest with
    | nil =>
      exact hchars c (List.mem_of_mem_getLast? hc)
    | cons w2 rest2 =>
      have hj : joinSpList (w :: w2 :: rest2) = w ++ ' ' :: joinSpList (w2 :: rest2) := rfl
      rw [hj, List.getLast?_append_of_ne_nil _ (by simp)] at hc
      obtain ⟨hne2, _⟩ := h w2 (by simp)
      have hJ : joinSpList (w2 :: rest2) ≠ [] := joinSp_ne_nil w2 rest2 hne2
      rw [show (' ' :: joinSpList (w2 :: rest2)) = [' '] ++ joinSpList (w2 :: rest2) from rfl,
        List.getLast?_append_of_ne_nil _ hJ] at hc
      exact ih (fun v hv => h v (by simp [hv])) c hc

theorem stripList_eq_self {cs : List Char}
    (h1 : ∀ c, cs.head? = some c → isWsChar c = false)
    (h2 : ∀ c, cs.getLast? = some c → isWsChar c = false) :
    stripList cs = cs := by
  unfold stripList
  rw [dropWhile_eq_self_of_head h1]
  rw [dropWhile_eq_self_of_head (fun c hc => h2 c (List.head?_reverse cs ▸ hc))]
  exact List.reverse_reverse cs

/-- C5 counterexample: the rule-first cleaner has no fallback to the original
normalized text — a query made only of stoplist words cleans to the empty
string, not back to the query. -/
theorem claim_C5_counterexample :
    Music._clean_query_from_user_input "phát nhạc" = "" ∧
      Music._clean_query_from_user_input "phát nhạc" ≠ pyLower "phát nhạc" := by
  refine ⟨rfl, ?_⟩
  intro h
  rw [show Music._clean_query_from_user_input "phát nhạc" = "" from rfl] at h
  rw [show pyLower "phát nhạc" = "phát nhạc" from rfl] at h
  exact absurd h (by decide)

/-- C5 amended: the rule-first cleaner removes exactly the stoplist words of
the lower-cased whitespace-split query (and nothing else, preserving order);
when nothing is left it returns the empty string — the fallback to the
original normalized text exists only in the email client's `extract_keyword`. -/
theorem map_mk_filter (p : String → Bool) (l : List (List Char)) :
    (l.filter (fun w => p ⟨w⟩)).map (fun w : List Char => (⟨w⟩ : String)) =
      (l.map (fun w : List Char => (⟨w⟩ : String))).filter p := by
  induction l with
  | nil => rfl
  | cons w rest ih =>
    simp only [List.map_cons, List.filter_cons]
    cases hp : p ⟨w⟩ <;> simp [hp, ih]

theorem claim_C5_amended_cleaning :
    (∀ q, pySplitWs (Music._clean_query_from_user_input q) =
      (pySplitWs (pyLower q)).filter (fun w => !Music.action_words.contains w)) ∧
    (∀ q, (pySplitWs (pyLower q)).all (fun w => Music.action_words.contains w) = true →
      Music._clean_query_from_user_input q = "") ∧
    (∀ q, (wordsList (GmailTest.normalize_text q).data).filter
        (fun t => !(GmailTest.STOPWORDS_VI.contains ⟨t⟩ ||
          GmailTest.STOPWORDS_EN.contains ⟨t⟩)) = [] →
      GmailTest.extract_keyword q = GmailTest.normalize_text q) := by
  refine ⟨fun q => ?_, fun q h => ?_, fun q h => ?_⟩
  · have hgood : ∀ w ∈ (wordsList (pyLower q).data).filter
        (fun w => !Music.action_words.contains ⟨w⟩),
        w ≠ [] ∧ ∀ c ∈ w, isWsChar c = false :=
      fun w hw => wordsAux_good (pyLower q).data [] (by simp) w (List.mem_of_mem_filter hw)
    have hclean : (Music._clean_query_from_user_input q).data =
        joinSpList ((wordsList (pyLower q).data).filter
          (fun w => !Music.action_words.contains ⟨w⟩)) := by
      unfold Music._clean_query_from_user_input
      exact stripList_eq_self (joinSp_head_good _ hgood) (joinSp_getLast_good _ hgood)
    unfold pySplitWs
    rw [hclean, wordsList_joinSp _ hgood]
    exact map_mk_filter (fun s => !Music.action_words.contains s)
      (wordsList (pyLower q).data)
  · have hnil : (wordsList (pyLower q).data).filter
        (fun w => !Music.action_words.contains ⟨w⟩) = [] := by
      rw [List.filter_eq_nil_iff]
      intro w hw
      simp only [List.all_eq_true] at h
      have hmem : (⟨w⟩ : String) ∈ pySplitWs (pyLower q) :=
        List.mem_map_of_mem (fun w : List Char => (⟨w⟩ : String)) hw
      have := h ⟨w⟩ hmem
      simpa using this
    unfold Music._clean_query_from_user_input
    simp only [hnil]
    rfl
  · unfold GmailTest.extract_keyword
    simp only [h]
    rfl
